import Mathlib

/-!
Shallow embedding of the two C sources of the repository:

* the epoll-based, self-pipe event-loop server found after the header part of
  `src/linux/socket/simple/clientmsg.h` (namespace `Srv`), and
* the threaded chat client `src/linux/socket/simple/client.c` together with
  the `struct CLIENTMSG` header (namespace `Cli`).

The server source carries a handful of evident transcription slips without
which the translation unit does not compile: missing semicolons on lines
39 and 42-44, the call `setnonblock(fd)` on line 52 for the only
declared function `setnonblocking`, and the fcntl command `F_SETTL` on
line 44 for `F_SETFL`.  The embedding models the evidently intended
program and each doc comment notes the repair where it matters.
-/

namespace Srv

/-- Linux signal number of SIGHUP (terminal hangup, informational here). -/
def SIGHUP : Nat := 1

/-- Linux signal number of SIGINT (interrupt, requests termination). -/
def SIGINT : Nat := 2

/-- Linux signal number of SIGTERM (terminate, requests termination). -/
def SIGTERM : Nat := 15

/-- Linux signal number of SIGCHLD (child terminated, informational here). -/
def SIGCHLD : Nat := 17

/-- epoll interest bit for readability. -/
def EPOLLIN : Nat := 1

/-- epoll interest bit for edge-triggered mode (bit 31). -/
def EPOLLET : Nat := 2147483648

/-- File-status flag bit O_NONBLOCK on Linux (octal 04000). -/
def O_NONBLOCK : Nat := 2048

/-- From `setnonblocking` (combined file lines 41-45):
`old_option = fcntl(fd, F_GETFL); new_option = old_option | O_NONBLOCK;
fcntl(fd, F_SETFL, new_option);` (the source spells the update command
`F_SETTL`, an evident slip for `F_SETFL`, modelled as the intended
`F_SETFL`).  The argument is the descriptor's current status flags,
`none` when the descriptor is invalid or closed so that both fcntl calls
fail.  The function checks neither fcntl result and has no error return
(the `int` function falls off its end), so the second component — the
error surfaced to the caller — is always `none`; on an invalid descriptor
the flags simply stay unset. -/
def setnonblocking (flags : Option Nat) : Option Nat × Option Nat :=
  match flags with
  | some old_option => (some (old_option ||| O_NONBLOCK), none)
  | none => (none, none)

/-- One entry of the epoll interest set built by `addfd`: the registered
descriptor, the interest mask passed to epoll_ctl, and whether
`setnonblocking` was applied to the descriptor. -/
structure RegEntry where
  fd : Int
  interest : Nat
  nonblocking : Bool
deriving Repr, DecidableEq

/-- From `addfd` (lines 47-53): `epoll_ctl(epollfd, EPOLL_CTL_ADD, fd, &event)`
with `event.events = EPOLLIN|EPOLLET`, followed by `setnonblocking(fd)`
(the source writes `setnonblock`, an evident slip).  Neither return value
is checked.  epoll_ctl and fcntl fail with EBADF when `fd` is not a valid
open descriptor — in the loop the only such argument is the `-1` of a
failed accept — so a failed registration is silently ignored and the
interest set is unchanged. -/
def addfd (reg : List RegEntry) (fd : Int) : List RegEntry :=
  if 0 ≤ fd then reg ++ [⟨fd, EPOLLIN ||| EPOLLET, true⟩] else reg

/-- From the switch over one received signal byte (lines 143-154): cases
SIGCHLD and SIGHUP `continue` (stop flag untouched), cases SIGTERM and
SIGINT set `stop_server = true`, a byte matching no case falls through
the switch with no effect. -/
def handleSignalByte (stop : Bool) (b : Nat) : Bool :=
  if b = SIGCHLD ∨ b = SIGHUP then stop
  else if b = SIGTERM ∨ b = SIGINT then true
  else stop

/-- State of the event loop of `main`: the `stop_server` flag, the bytes
written into the signal bridge and not yet received from `pipefd[0]`,
and the interest-set entries added by `addfd` during the loop. -/
structure LoopState where
  stop_server : Bool
  pending : List Nat
  registered : List RegEntry
deriving Repr, DecidableEq

/-- One ready descriptor reported by epoll_wait, with the data the
corresponding dispatch consumes:
* `listen connfd`: the listening socket is ready; the single `accept`
  of that branch yields `connfd` (negative models a failed accept,
  e.g. EWOULDBLOCK on a spurious readiness);
* `sigpipe recvErr`: `pipefd[0]` is ready with EPOLLIN set; `recvErr`
  models `recv` returning -1, upon which the branch `continue`s;
* `other`: any other ready descriptor, or `pipefd[0]` without EPOLLIN —
  the empty `else {}` branch. -/
inductive Ev where
  | listen (connfd : Int)
  | sigpipe (recvErr : Bool)
  | other
deriving Repr, DecidableEq

/-- Dispatch of one ready descriptor (lines 125-158).  The signal-bridge
branch performs a single `recv` into the 1024-byte buffer `signals`:
it consumes at most 1024 of the pending bytes and folds the switch of
`handleSignalByte` over the consumed bytes; bytes beyond the first 1024
stay pending.  The listening-socket branch calls `accept` once and passes
its result to `addfd` unconditionally. -/
def handleEv (s : LoopState) (e : Ev) : LoopState :=
  match e with
  | Ev.listen connfd => { s with registered := addfd s.registered connfd }
  | Ev.sigpipe recvErr =>
      if recvErr then s
      else
        { s with
          stop_server := (s.pending.take 1024).foldl handleSignalByte s.stop_server,
          pending := s.pending.drop 1024 }
  | Ev.other => s

/-- The inner `for` over the `number` events of one epoll_wait batch
(lines 125-158): every reported descriptor is dispatched in order; the
loop body never consults `stop_server`. -/
def handleBatch (s : LoopState) (evs : List Ev) : LoopState :=
  evs.foldl handleEv s

/-- Result of one `epoll_wait` call (line 119) as the loop observes it:
a batch of ready descriptors, or -1 with `errno == EINTR` (a signal
interrupted the wait; `number < 0` makes the inner `for` run zero times
and the outer loop retries), or -1 with any other errno (the hard-error
branch of lines 120-123). -/
inductive WaitRes where
  | events (evs : List Ev)
  | eintr
  | hardErr
deriving Repr, DecidableEq

/-- One external step the loop's environment can take:
* `deliver sig`: a signal is delivered and `sig_handler`'s nonblocking
  send succeeds, appending the signal's low byte to the bridge;
* `iter w`: control reaches the top of the `while (!stop_server)` loop
  and, if the condition holds, `epoll_wait` yields `w`. -/
inductive Act where
  | deliver (sig : Nat)
  | iter (w : WaitRes)
deriving Repr, DecidableEq

/-- Control position of `main` around the loop: `running s` is inside the
`while (!stop_server)` loop with loop state `s`; `stopped s epollFail`
is past the loop, `epollFail` recording whether the exit was the `break`
of the epoll hard-error branch (which printed the diagnostic
`epoll failure` via printf, hence to standard output) rather than the
`while` condition failing.  The code after the loop is straight-line
(print `close fds`, close the three descriptors, `return 0`), so
`stopped` is terminal. -/
inductive Status where
  | running (s : LoopState)
  | stopped (s : LoopState) (epollFail : Bool)
deriving Repr, DecidableEq

/-- One step of the loop against one environment action (lines 118-159):
past the loop nothing runs again; a delivered signal appends its low
byte to the bridge regardless of control position (the handler stays
installed); at the top of the loop the `while` condition is the only
place `stop_server` is read — if it is set the loop exits, otherwise
`epoll_wait` runs and its batch is dispatched in full, EINTR is retried,
and a hard error prints the diagnostic and `break`s. -/
def stepAct (st : Status) (a : Act) : Status :=
  match st, a with
  | Status.stopped s d, _ => Status.stopped s d
  | Status.running s, Act.deliver sig =>
      Status.running { s with pending := s.pending ++ [sig % 256] }
  | Status.running s, Act.iter w =>
      if s.stop_server then Status.stopped s false
      else
        match w with
        | WaitRes.events evs => Status.running (handleBatch s evs)
        | WaitRes.eintr => Status.running s
        | WaitRes.hardErr => Status.stopped s true

/-- Run of the loop against a finite trace of environment actions. -/
def run (st : Status) (tr : List Act) : Status :=
  tr.foldl stepAct st

/-- Number of executions of the `while` body along a trace: an `iter`
action runs the body exactly when control is still inside the loop and
`stop_server` is not yet set. -/
def itersRun : Status → List Act → Nat
  | _, [] => 0
  | st, a :: rest =>
      (match st, a with
       | Status.running s, Act.iter _ => if s.stop_server then 0 else 1
       | _, _ => 0) + itersRun (stepAct st a) rest

/-- Exit status of the process as a function of control position: while
the loop is running the process has not exited; past the loop — on the
normal path and on the epoll hard-error `break` path alike — execution
falls through to `return 0` (line 164). -/
def exitStatus (st : Status) : Option Nat :=
  match st with
  | Status.running _ => none
  | Status.stopped _ _ => some 0

/-- Outcome of the setup phase of `main` before the loop. -/
inductive SetupOutcome where
  | abort
  | loopEntered
deriving Repr, DecidableEq

/-- Setup sequence of `main` (lines 90-116) with one success flag per
fallible call: `socket` guarded by `assert(listenfd >= 0)`; `bind`,
whose failure merely executes `printf("errno is %d\n", errno)` and
falls through; `listen` guarded by `assert(ret != -1)`; `epoll_create`
guarded by `assert(epollfd != -1)`; `socketpair` guarded by
`assert(ret != -1)`.  A failed assert aborts the process; otherwise the
signal handlers are installed and the loop is entered. -/
def setup (socketOk bindOk listenOk epollOk pairOk : Bool) : SetupOutcome :=
  if socketOk = false then SetupOutcome.abort
  else if listenOk = false then SetupOutcome.abort
  else if epollOk = false then SetupOutcome.abort
  else if pairOk = false then SetupOutcome.abort
  else SetupOutcome.loopEntered

/-- errno value EAGAIN (equal to EWOULDBLOCK on Linux), the failure a
nonblocking send reports when the bridge buffer is full. -/
def EAGAIN : Int := 11

/-- Process state as the signal handler sees it: the ambient `errno`,
plus the loop state — the bridge byte stream the handler writes into and
the shared data (`stop_server`, the interest set) the handler could in
principle touch but does not. -/
structure ProcState where
  errno : Int
  loop : LoopState
deriving Repr, DecidableEq

/-- From `sig_handler` (lines 57-63): `int save_errno = errno;
int msg = sig; send(pipefd[1], (char*)&msg, 1, 0); errno = save_errno;`.
Exactly one byte — the first byte of `int msg`, i.e. the low byte
`sig % 256` on the little-endian target — is sent, with no retry loop;
`pipefd[1]` was made nonblocking at line 108, so `sendOk = false`
models the send failing (buffer full): the byte is lost and errno is
clobbered by the failed send before the final line restores it. -/
def sig_handler (sig : Nat) (sendOk : Bool) (s : ProcState) : ProcState :=
  let save_errno := s.errno
  let afterSend : ProcState :=
    if sendOk then
      { s with loop := { s.loop with pending := s.loop.pending ++ [sig % 256] } }
    else
      { s with errno := EAGAIN }
  { afterSend with errno := save_errno }


end Srv

namespace Cli

/-- Op code EXIT of `clientmsg.h` (client leaving). -/
def EXIT : Int := -1

/-- Op code USER of `clientmsg.h` (client declares identity). -/
def USER : Int := 1

/-- Op code MSG of `clientmsg.h` (chat line). -/
def MSG : Int := 2

/-- Op code OK of `clientmsg.h` (connection admitted). -/
def OK : Int := 3

/-- Buffer length CMSGLEN of `clientmsg.h`. -/
def CMSGLEN : Nat := 100

/-- Record `struct CLIENTMSG` of `clientmsg.h`: `int op`,
`char username[20]`, `char buf[CMSGLEN]`; the two character arrays are
modelled as strings. -/
structure CLIENTMSG where
  op : Int
  username : String
  buf : String
deriving Repr, DecidableEq

/-- One line `process_cli` may print for a received record. -/
inductive CliOutput where
  | login (u : String)
  | logout (u : String)
  | chat (u b : String)
deriving Repr, DecidableEq

/-- Outcome of one pass of a loop body: either the body completes and the
loop runs again (possibly having printed a line), or the body leaves
the enclosing routine. -/
inductive IterResult where
  | continueLoop (out : Option CliOutput)
  | returnFromLoop
deriving Repr, DecidableEq

/-- Body of the `while(1)` of `process_cli` (client.c lines 88-102):
`bzero` the record, `recv`; when `len > 0` the op selects a printf
(USER → login line, EXIT → logout line, MSG → chat line, anything else
prints nothing); when `len` is 0 (peer closed) or negative (error) no
branch is taken.  The body contains no `break` and no `return`, so every
path completes the pass and loops again. -/
def process_cli_iter (len : Int) (m : CLIENTMSG) : IterResult :=
  if 0 < len then
    if m.op = USER then IterResult.continueLoop (some (CliOutput.login m.username))
    else if m.op = EXIT then IterResult.continueLoop (some (CliOutput.logout m.username))
    else if m.op = MSG then IterResult.continueLoop (some (CliOutput.chat m.username m.buf))
    else IterResult.continueLoop none
  else IterResult.continueLoop none

/-- Run of `process_cli` against a finite list of `recv` results (each a
length and, when positive, the record read).  Produces the printed lines
and whether the routine returned; with the list exhausted the thread is
blocked in the next `recv` (or spinning on further results), not
returned. -/
def process_cli_run : List (Int × CLIENTMSG) → List CliOutput × Bool
  | [] => ([], false)
  | (len, m) :: rest =>
      match process_cli_iter len m with
      | IterResult.continueLoop out =>
          let r := process_cli_run rest
          (out.toList ++ r.1, r.2)
      | IterResult.returnFromLoop => ([], true)

/-- Main-thread chat loop of the client (client.c lines 56-67) over the
lines the user types: each line is sent as a MSG record; the line `bye`
is sent as an EXIT record, the loop breaks, and control reaches
`pthread_cancel(tid)` (line 67).  Result: the ops sent, and whether
`pthread_cancel` was reached; with the input exhausted before a `bye`
the loop is still blocked in `gets` and no cancel has happened. -/
def clientMain : List String → List Int × Bool
  | [] => ([], false)
  | l :: rest =>
      if l = "bye" then ([EXIT], true)
      else
        let r := clientMain rest
        (MSG :: r.1, r.2)

end Cli

namespace Srv

/-- Closed form of the switch: the stop flag after one byte is true exactly
when it already was or the byte is SIGTERM or SIGINT. -/
theorem handleSignalByte_eq (stop : Bool) (b : Nat) :
    handleSignalByte stop b = if b = SIGTERM ∨ b = SIGINT then true else stop := by
  unfold handleSignalByte SIGCHLD SIGHUP SIGTERM SIGINT
  split_ifs with h1 h2
  · exfalso; omega
  · rfl
  · rfl
  · rfl

/-- Once the stop flag is set, no byte resets it. -/
theorem handleSignalByte_true (b : Nat) : handleSignalByte true b = true := by
  rw [handleSignalByte_eq]; split_ifs <;> rfl

/-- Once the stop flag is set, no sequence of bytes resets it. -/
theorem foldl_handleSignalByte_true (l : List Nat) :
    l.foldl handleSignalByte true = true := by
  induction l with
  | nil => rfl
  | cons x xs ih => rw [List.foldl_cons, handleSignalByte_true]; exact ih

/-- Folding the switch over bytes containing a terminating signal yields a
set stop flag, whatever the interleaved other bytes. -/
theorem foldl_handleSignalByte_of_mem (l : List Nat) (b : Nat) (stop : Bool)
    (hb : b ∈ l) (hterm : b = SIGTERM ∨ b = SIGINT) :
    l.foldl handleSignalByte stop = true := by
  induction l generalizing stop with
  | nil => cases hb
  | cons x xs ih =>
    rcases List.mem_cons.mp hb with h | h
    · subst h
      rw [List.foldl_cons, handleSignalByte_eq, if_pos hterm]
      exact foldl_handleSignalByte_true xs
    · rw [List.foldl_cons]
      exact ih (handleSignalByte stop x) h

/-- Dispatching one ready descriptor never clears a set stop flag. -/
theorem handleEv_stop_mono (s : LoopState) (e : Ev) (h : s.stop_server = true) :
    (handleEv s e).stop_server = true := by
  cases e with
  | listen connfd => simpa [handleEv] using h
  | sigpipe recvErr =>
    cases recvErr with
    | false => simp [handleEv, h, foldl_handleSignalByte_true]
    | true => simpa [handleEv] using h
  | other => simpa [handleEv] using h

/-- Dispatching a whole batch never clears a set stop flag. -/
theorem handleBatch_stop_mono (evs : List Ev) (s : LoopState)
    (h : s.stop_server = true) : (handleBatch s evs).stop_server = true := by
  induction evs generalizing s with
  | nil => exact h
  | cons e rest ih => exact ih (handleEv s e) (handleEv_stop_mono s e h)

/-- The batch dispatch distributes over concatenation: later events are
dispatched from the state the earlier ones produced, never skipped. -/
theorem handleBatch_append (s : LoopState) (l1 l2 : List Ev) :
    handleBatch s (l1 ++ l2) = handleBatch (handleBatch s l1) l2 := by
  unfold handleBatch
  exact List.foldl_append handleEv s l1 l2

/-- Past the loop, no action changes the control position. -/
theorem stepAct_stopped (s : LoopState) (d : Bool) (a : Act) :
    stepAct (Status.stopped s d) a = Status.stopped s d := by
  cases a <;> rfl

/-- Past the loop, no trace changes the control position: STOPPED is
terminal. -/
theorem run_stopped (s : LoopState) (d : Bool) (tr : List Act) :
    run (Status.stopped s d) tr = Status.stopped s d := by
  induction tr with
  | nil => rfl
  | cons a rest ih =>
    show run (stepAct (Status.stopped s d) a) rest = Status.stopped s d
    rw [stepAct_stopped]; exact ih

/-- Past the loop, the while body never runs again. -/
theorem itersRun_stopped (s : LoopState) (d : Bool) (tr : List Act) :
    itersRun (Status.stopped s d) tr = 0 := by
  induction tr with
  | nil => rfl
  | cons a rest ih =>
    show (match Status.stopped s d, a with
          | Status.running s, Act.iter _ => if s.stop_server then 0 else 1
          | _, _ => 0) + itersRun (stepAct (Status.stopped s d) a) rest = 0
    rw [stepAct_stopped]
    cases a <;> simpa using ih

/-- With the stop flag set, the while body never runs again along any
trace of deliveries and loop-top arrivals. -/
theorem itersRun_of_stop (tr : List Act) (s : LoopState)
    (h : s.stop_server = true) : itersRun (Status.running s) tr = 0 := by
  induction tr generalizing s with
  | nil => rfl
  | cons a rest ih =>
    cases a with
    | deliver sig =>
      show 0 + itersRun (stepAct (Status.running s) (Act.deliver sig)) rest = 0
      rw [Nat.zero_add]
      exact ih { s with pending := s.pending ++ [sig % 256] } h
    | iter w =>
      show (if s.stop_server then 0 else 1) +
          itersRun (stepAct (Status.running s) (Act.iter w)) rest = 0
      rw [h, if_pos rfl, Nat.zero_add]
      show itersRun (if s.stop_server then Status.stopped s false
          else match w with
            | WaitRes.events evs => Status.running (handleBatch s evs)
            | WaitRes.eintr => Status.running s
            | WaitRes.hardErr => Status.stopped s true) rest = 0
      rw [h, if_pos rfl]
      exact itersRun_stopped s false rest

/-- Dispatching one ready descriptor never removes an interest-set entry. -/
theorem handleEv_registered_mem (s : LoopState) (e : Ev) (x : RegEntry)
    (hx : x ∈ s.registered) : x ∈ (handleEv s e).registered := by
  cases e with
  | listen connfd =>
    show x ∈ addfd s.registered connfd
    unfold addfd
    split
    · exact List.mem_append_left _ hx
    · exact hx
  | sigpipe recvErr => cases recvErr <;> simpa [handleEv] using hx
  | other => simpa [handleEv] using hx

/-- Dispatching a whole batch never removes an interest-set entry. -/
theorem handleBatch_registered_mem (evs : List Ev) (s : LoopState) (x : RegEntry)
    (hx : x ∈ s.registered) : x ∈ (handleBatch s evs).registered := by
  induction evs generalizing s with
  | nil => exact hx
  | cons e rest ih => exact ih (handleEv s e) (handleEv_registered_mem s e x hx)

/-- C1: for every sequence of drained signal bytes interleaving terminating
signals (SIGTERM, SIGINT) with informational ones, once the loop processes
the first terminating byte — here: some drained byte `b` of a bridge
readiness event inside the batch is SIGTERM or SIGINT — the stop flag is
true after the batch, the while condition at the next loop top fails for
any wait outcome, no later while-body execution happens along any trace,
and the STOPPED position is never left again. -/
theorem C1_first_terminating_signal_stops_loop
    (s : LoopState) (pre post : List Ev) (b : Nat)
    (hb : b ∈ (handleBatch s pre).pending.take 1024)
    (hterm : b = SIGTERM ∨ b = SIGINT) :
    (handleBatch s (pre ++ Ev.sigpipe false :: post)).stop_server = true ∧
    (∀ w : WaitRes,
      stepAct (Status.running (handleBatch s (pre ++ Ev.sigpipe false :: post)))
          (Act.iter w) =
        Status.stopped (handleBatch s (pre ++ Ev.sigpipe false :: post)) false) ∧
    (∀ tr : List Act,
      itersRun (Status.running (handleBatch s (pre ++ Ev.sigpipe false :: post))) tr = 0) ∧
    (∀ tr : List Act,
      run (Status.stopped (handleBatch s (pre ++ Ev.sigpipe false :: post)) false) tr =
        Status.stopped (handleBatch s (pre ++ Ev.sigpipe false :: post)) false) := by
  have hstop : (handleBatch s (pre ++ Ev.sigpipe false :: post)).stop_server = true := by
    have hsplit : handleBatch s (pre ++ Ev.sigpipe false :: post) =
        handleBatch (handleEv (handleBatch s pre) (Ev.sigpipe false)) post := by
      rw [handleBatch_append]
      rfl
    rw [hsplit]
    apply handleBatch_stop_mono
    show (handleEv (handleBatch s pre) (Ev.sigpipe false)).stop_server = true
    simp only [handleEv, if_neg Bool.false_ne_true]
    exact foldl_handleSignalByte_of_mem _ b _ hb hterm
  refine ⟨hstop, ?_, ?_, ?_⟩
  · intro w
    simp [stepAct, hstop]
  · intro tr
    exact itersRun_of_stop tr _ hstop
  · intro tr
    exact run_stopped _ false tr

/-- Witness for C1 at a concrete input: state with one pending SIGTERM
byte, empty surrounding batch. -/
theorem C1_first_terminating_signal_stops_loop_witness :
    SIGTERM ∈ ((handleBatch (LoopState.mk false [SIGTERM] []) []).pending.take 1024) ∧
    (SIGTERM = SIGTERM ∨ SIGTERM = SIGINT) ∧
    (handleBatch (LoopState.mk false [SIGTERM] [])
        ([] ++ Ev.sigpipe false :: [])).stop_server = true :=
  ⟨by decide, Or.inl rfl,
    (C1_first_terminating_signal_stops_loop (LoopState.mk false [SIGTERM] [])
      [] [] SIGTERM (by decide) (Or.inl rfl)).1⟩

/-- C3: the handler's entire effect is to save errno, perform one
non-retrying one-byte write of the signal number's low byte into the
bridge's write end (the byte is lost when the nonblocking send fails),
and restore errno; the stop flag and the interest set are untouched. -/
theorem C3_sig_handler_entire_effect (sig : Nat) (sendOk : Bool) (s : ProcState) :
    ((sig_handler sig sendOk s).errno = s.errno) ∧
    ((sig_handler sig sendOk s).loop.stop_server = s.loop.stop_server) ∧
    ((sig_handler sig sendOk s).loop.registered = s.loop.registered) ∧
    (sendOk = true →
      (sig_handler sig sendOk s).loop.pending = s.loop.pending ++ [sig % 256]) ∧
    (sendOk = false →
      (sig_handler sig sendOk s).loop.pending = s.loop.pending) := by
  cases sendOk <;> simp [sig_handler]

/-- Witness for C3 at a concrete input: SIGTERM delivered to a fresh
process state with a successful send. -/
theorem C3_sig_handler_entire_effect_witness :
    (true = true) ∧
    (sig_handler SIGTERM true (ProcState.mk 0 (LoopState.mk false [] []))).loop.pending =
      [] ++ [SIGTERM % 256] :=
  ⟨rfl, (C3_sig_handler_entire_effect SIGTERM true
    (ProcState.mk 0 (LoopState.mk false [] []))).2.2.2.1 rfl⟩

/-- C4: the switch sets the stop flag exactly for the bytes SIGTERM and
SIGINT; SIGCHLD, SIGHUP and any byte matching no case leave it
unchanged. -/
theorem C4_signal_byte_classification (stop : Bool) (b : Nat) :
    (handleSignalByte false b = true ↔ (b = SIGTERM ∨ b = SIGINT)) ∧
    ((b = SIGTERM ∨ b = SIGINT) → handleSignalByte stop b = true) ∧
    (b ≠ SIGTERM → b ≠ SIGINT → handleSignalByte stop b = stop) := by
  refine ⟨?_, ?_, ?_⟩
  · rw [handleSignalByte_eq]
    split_ifs with h
    · simp [h]
    · simp [h]
  · intro h
    rw [handleSignalByte_eq, if_pos h]
  · intro h1 h2
    rw [handleSignalByte_eq, if_neg]
    rintro (h | h)
    · exact h1 h
    · exact h2 h

/-- Witness for C4 at concrete bytes: SIGTERM sets the flag, SIGCHLD and
the unclassified byte 9 leave it clear. -/
theorem C4_signal_byte_classification_witness :
    (SIGTERM = SIGTERM ∨ SIGTERM = SIGINT) ∧
    handleSignalByte false SIGTERM = true ∧
    handleSignalByte false SIGCHLD = false ∧
    handleSignalByte false 9 = false :=
  ⟨Or.inl rfl,
    (C4_signal_byte_classification false SIGTERM).2.1 (Or.inl rfl),
    (C4_signal_byte_classification false SIGCHLD).2.2 (by decide) (by decide),
    (C4_signal_byte_classification false 9).2.2 (by decide) (by decide)⟩

set_option maxRecDepth 8000 in
/-- Counterexample to C2 as stated: with 1024 informational bytes followed
by one SIGTERM byte pending, one readiness pass of the bridge leaves the
SIGTERM byte unread (the single recv consumes only the 1024-byte buffer),
and the stop flag stays clear — a delivered signal byte is left unread
until a later edge. -/
theorem C2_counterexample :
    ((handleEv
        (LoopState.mk false (List.replicate 1024 SIGCHLD ++ [SIGTERM]) [])
        (Ev.sigpipe false)).pending = [SIGTERM]) ∧
    ((handleEv
        (LoopState.mk false (List.replicate 1024 SIGCHLD ++ [SIGTERM]) [])
        (Ev.sigpipe false)).stop_server = false) := by
  decide

/-- C2 amended: each readiness notification of the bridge performs a single
recv into the 1024-byte buffer, consuming and classifying exactly the
first min(1024, available) pending bytes; the descriptor is fully drained
in that one pass precisely when at most 1024 bytes are pending, and any
excess stays pending; a recv error consumes nothing (the branch
continues). -/
theorem C2_single_recv_bounded_drain (s : LoopState) :
    ((handleEv s (Ev.sigpipe false)).pending = s.pending.drop 1024) ∧
    ((handleEv s (Ev.sigpipe false)).stop_server =
      (s.pending.take 1024).foldl handleSignalByte s.stop_server) ∧
    (s.pending.length ≤ 1024 → (handleEv s (Ev.sigpipe false)).pending = []) ∧
    (1024 < s.pending.length → (handleEv s (Ev.sigpipe false)).pending ≠ []) ∧
    (handleEv s (Ev.sigpipe true) = s) := by
  refine ⟨rfl, rfl, ?_, ?_, rfl⟩
  · intro h
    show s.pending.drop 1024 = []
    exact List.drop_eq_nil_of_le h
  · intro h
    show s.pending.drop 1024 ≠ []
    intro hnil
    have : s.pending.length - 1024 = 0 := by
      rw [← List.length_drop, hnil]
      rfl
    omega

set_option maxRecDepth 8000 in
/-- Witness for C2 amended at concrete inputs: a single pending SIGCHLD
byte is fully drained; 1025 pending bytes are not. -/
theorem C2_single_recv_bounded_drain_witness :
    ((LoopState.mk false [SIGCHLD] []).pending.length ≤ 1024 ∧
      (handleEv (LoopState.mk false [SIGCHLD] []) (Ev.sigpipe false)).pending = []) ∧
    (1024 < (LoopState.mk false (List.replicate 1025 SIGCHLD) []).pending.length ∧
      (handleEv (LoopState.mk false (List.replicate 1025 SIGCHLD) [])
          (Ev.sigpipe false)).pending ≠ []) :=
  ⟨⟨by decide,
    (C2_single_recv_bounded_drain (LoopState.mk false [SIGCHLD] [])).2.2.1 (by decide)⟩,
   ⟨by decide,
    (C2_single_recv_bounded_drain
      (LoopState.mk false (List.replicate 1025 SIGCHLD) [])).2.2.2.1 (by decide)⟩⟩

/-- Counterexample to C5 as stated: with bind failing and every other
setup call succeeding, the process does not abort — the bind branch only
prints errno and falls through — and the event loop is entered. -/
theorem C5_counterexample :
    setup true false true true true = SetupOutcome.loopEntered := by
  decide

/-- C5 amended: a listen failure (like a socket, epoll_create or socketpair
failure) aborts via assert before the loop ever runs, whatever the other
calls do; a bind failure alone is merely logged and the loop is still
entered. -/
theorem C5_listen_failure_aborts_bind_failure_does_not
    (socketOk bindOk epollOk pairOk b : Bool) :
    setup socketOk bindOk false epollOk pairOk = SetupOutcome.abort ∧
    setup true b true true true = SetupOutcome.loopEntered := by
  revert socketOk bindOk epollOk pairOk b
  decide

/-- Counterexample to C6 as stated: a hard epoll_wait failure does stop the
loop, but the process then reaches the ordinary teardown and returns 0 —
not the claimed non-zero exit (and the diagnostic goes through printf to
standard output, not standard error). -/
theorem C6_counterexample :
    run (Status.running (LoopState.mk false [] [])) [Act.iter WaitRes.hardErr] =
      Status.stopped (LoopState.mk false [] []) true ∧
    exitStatus
      (run (Status.running (LoopState.mk false [] [])) [Act.iter WaitRes.hardErr]) =
      some 0 := by
  decide

/-- C6 amended: an EINTR failure of epoll_wait is treated as zero events —
the state is unchanged and the loop retries, not terminating; a hard
failure prints the diagnostic (via printf, to standard output) and breaks
out of the loop, after which the process closes its descriptors and exits
with status 0. -/
theorem C6_eintr_retries_hard_error_breaks_exit_zero
    (s : LoopState) (hs : s.stop_server = false) :
    stepAct (Status.running s) (Act.iter WaitRes.eintr) = Status.running s ∧
    stepAct (Status.running s) (Act.iter WaitRes.hardErr) = Status.stopped s true ∧
    exitStatus (Status.stopped s true) = some 0 := by
  refine ⟨?_, ?_, rfl⟩ <;> simp [stepAct, hs]

/-- Witness for C6 amended at a concrete input: the initial loop state. -/
theorem C6_eintr_retries_hard_error_breaks_exit_zero_witness :
    (LoopState.mk false [] []).stop_server = false ∧
    stepAct (Status.running (LoopState.mk false [] [])) (Act.iter WaitRes.eintr) =
      Status.running (LoopState.mk false [] []) :=
  ⟨rfl, (C6_eintr_retries_hard_error_breaks_exit_zero
    (LoopState.mk false [] []) rfl).1⟩

/-- C7: on listening-socket readiness the loop accepts once; a successful
accept registers exactly the new descriptor, edge-triggered readable and
set nonblocking; a failed accept (connfd = -1, e.g. EWOULDBLOCK on a
spurious readiness) leaves the loop state — interest set included —
unchanged, since the unchecked epoll_ctl and fcntl on the invalid
descriptor fail, and the loop moves to the next ready descriptor. -/
theorem C7_accept_once_register_or_ignore (s : LoopState) (connfd : Int) :
    (0 ≤ connfd → handleEv s (Ev.listen connfd) =
      { s with registered :=
          s.registered ++ [RegEntry.mk connfd (EPOLLIN ||| EPOLLET) true] }) ∧
    (connfd < 0 → handleEv s (Ev.listen connfd) = s) := by
  constructor
  · intro h
    show { s with registered := addfd s.registered connfd } = _
    rw [addfd, if_pos h]
  · intro h
    show { s with registered := addfd s.registered connfd } = s
    rw [addfd, if_neg (not_le.mpr h)]

/-- Witness for C7 at concrete inputs: a successful accept returning
descriptor 6 and a failed accept returning -1. -/
theorem C7_accept_once_register_or_ignore_witness :
    ((0 : Int) ≤ 6 ∧
      handleEv (LoopState.mk false [] []) (Ev.listen 6) =
        { LoopState.mk false [] [] with registered :=
            [] ++ [RegEntry.mk 6 (EPOLLIN ||| EPOLLET) true] }) ∧
    ((-1 : Int) < 0 ∧
      handleEv (LoopState.mk false [] []) (Ev.listen (-1)) =
        LoopState.mk false [] []) :=
  ⟨⟨by decide,
    (C7_accept_once_register_or_ignore (LoopState.mk false [] []) 6).1 (by decide)⟩,
   ⟨by decide,
    (C7_accept_once_register_or_ignore (LoopState.mk false [] []) (-1)).2 (by decide)⟩⟩

/-- Counterexample to C8 as stated: on a descriptor whose flag query fails
(invalid or concurrently closed descriptor), the adapter surfaces no
error whatsoever — the claimed propagated DescriptorError does not
exist, as the source checks neither fcntl result and returns nothing. -/
theorem C8_counterexample :
    setnonblocking none = (none, none) := rfl

/-- C8 amended: when the flag query succeeds the adapter sets the
O_NONBLOCK bit (bit 11) while preserving every flag bit already set; but
failures of the flag query or update are silently ignored — no error is
ever propagated to the caller (and the update command is the misspelled
F_SETTL in the source). -/
theorem C8_nonblock_set_flags_preserved_errors_ignored
    (old i : Nat) (hbit : Nat.testBit old i = true) :
    ((setnonblocking (some old)).1 = some (old ||| O_NONBLOCK)) ∧
    (Nat.testBit (old ||| O_NONBLOCK) 11 = true) ∧
    (Nat.testBit (old ||| O_NONBLOCK) i = true) ∧
    ((setnonblocking (some old)).2 = none) ∧
    ((setnonblocking none).2 = none) := by
  refine ⟨rfl, ?_, ?_, rfl, rfl⟩
  · rw [Nat.testBit_lor]
    have : Nat.testBit O_NONBLOCK 11 = true := by decide
    rw [this, Bool.or_true]
  · rw [Nat.testBit_lor, hbit, Bool.true_or]

/-- Witness for C8 amended at a concrete input: flags 2 (O_RDWR), whose
bit 1 is preserved alongside the newly set bit 11. -/
theorem C8_nonblock_set_flags_preserved_errors_ignored_witness :
    Nat.testBit 2 1 = true ∧
    (setnonblocking (some 2)).1 = some (2 ||| O_NONBLOCK) ∧
    Nat.testBit (2 ||| O_NONBLOCK) 11 = true ∧
    Nat.testBit (2 ||| O_NONBLOCK) 1 = true :=
  ⟨by decide,
    (C8_nonblock_set_flags_preserved_errors_ignored 2 1 (by decide)).1,
    (C8_nonblock_set_flags_preserved_errors_ignored 2 1 (by decide)).2.1,
    (C8_nonblock_set_flags_preserved_errors_ignored 2 1 (by decide)).2.2.1⟩

/-- C9: the stop flag is read only by the while condition; an iteration
entered with the flag clear dispatches its entire epoll_wait batch —
here: a listening-socket readiness placed after an arbitrary prefix
(which may contain the terminating drain that sets the flag) is still
dispatched, its accepted descriptor ending registered — and only after
the whole batch does control return to the loop top, where a set flag
then exits before teardown. -/
theorem C9_batch_fully_dispatched_stop_checked_at_top
    (s : LoopState) (pre post : List Ev) (connfd : Int)
    (hs : s.stop_server = false) (hfd : 0 ≤ connfd) :
    (handleBatch s (pre ++ Ev.listen connfd :: post) =
      handleBatch (handleEv (handleBatch s pre) (Ev.listen connfd)) post) ∧
    (RegEntry.mk connfd (EPOLLIN ||| EPOLLET) true ∈
      (handleBatch s (pre ++ Ev.listen connfd :: post)).registered) ∧
    (stepAct (Status.running s)
        (Act.iter (WaitRes.events (pre ++ Ev.listen connfd :: post))) =
      Status.running (handleBatch s (pre ++ Ev.listen connfd :: post))) := by
  have hsplit : handleBatch s (pre ++ Ev.listen connfd :: post) =
      handleBatch (handleEv (handleBatch s pre) (Ev.listen connfd)) post := by
    rw [handleBatch_append]
    rfl
  refine ⟨hsplit, ?_, ?_⟩
  · rw [hsplit]
    apply handleBatch_registered_mem
    show _ ∈ addfd (handleBatch s pre).registered connfd
    rw [addfd, if_pos hfd]
    exact List.mem_append_right _ (List.mem_singleton.mpr rfl)
  · simp [stepAct, hs]

/-- Witness for C9 at a concrete input: a batch whose prefix drains a
SIGTERM byte and whose suffix still registers the accepted descriptor 7. -/
theorem C9_batch_fully_dispatched_stop_checked_at_top_witness :
    (LoopState.mk false [SIGTERM] []).stop_server = false ∧
    (0 : Int) ≤ 7 ∧
    RegEntry.mk 7 (EPOLLIN ||| EPOLLET) true ∈
      (handleBatch (LoopState.mk false [SIGTERM] [])
        ([Ev.sigpipe false] ++ Ev.listen 7 :: [])).registered :=
  ⟨rfl, by decide,
    (C9_batch_fully_dispatched_stop_checked_at_top
      (LoopState.mk false [SIGTERM] []) [Ev.sigpipe false] [] 7 rfl (by decide)).2.1⟩

end Srv

namespace Cli

/-- Every pass of the process_cli body completes and loops again: no recv
result selects a path that leaves the routine. -/
theorem process_cli_iter_continues (len : Int) (m : CLIENTMSG) :
    process_cli_iter len m ≠ IterResult.returnFromLoop := by
  unfold process_cli_iter
  split_ifs <;> simp

/-- A recv result of 0 (peer closed) or negative (error) takes no branch:
the pass prints nothing and the loop just runs again. -/
theorem process_cli_iter_nonpositive (len : Int) (m : CLIENTMSG)
    (h : len ≤ 0) : process_cli_iter len m = IterResult.continueLoop none := by
  unfold process_cli_iter
  rw [if_neg (not_lt.mpr h)]

/-- No finite sequence of recv results makes process_cli return. -/
theorem process_cli_run_never_returns (recvs : List (Int × CLIENTMSG)) :
    (process_cli_run recvs).2 = false := by
  induction recvs with
  | nil => rfl
  | cons p rest ih =>
    show (match process_cli_iter p.1 p.2 with
          | IterResult.continueLoop out =>
              (out.toList ++ (process_cli_run rest).1, (process_cli_run rest).2)
          | IterResult.returnFromLoop => ([], true)).2 = false
    cases hi : process_cli_iter p.1 p.2 with
    | continueLoop out => simpa using ih
    | returnFromLoop => exact absurd hi (process_cli_iter_continues p.1 p.2)

/-- The main thread's chat loop sends MSG for each ordinary line, and on
the first "bye" line sends EXIT, breaks, and reaches pthread_cancel. -/
theorem clientMain_bye_cancels (lines rest : List String)
    (hno : "bye" ∉ lines) :
    clientMain (lines ++ "bye" :: rest) =
      (lines.map (fun _ => MSG) ++ [EXIT], true) := by
  induction lines with
  | nil => rfl
  | cons l ls ih =>
    have hl : l ≠ "bye" := fun h => hno (h ▸ List.mem_cons_self l ls)
    have hls : "bye" ∉ ls := fun h => hno (List.mem_cons_of_mem l h)
    show (if l = "bye" then ([EXIT], true)
          else (MSG :: (clientMain (ls ++ "bye" :: rest)).1,
                (clientMain (ls ++ "bye" :: rest)).2)) = _
    rw [if_neg hl, ih hls]
    rfl

/-- Without a "bye" line the main thread never reaches pthread_cancel. -/
theorem clientMain_no_bye_no_cancel (lines : List String)
    (hno : "bye" ∉ lines) : (clientMain lines).2 = false := by
  induction lines with
  | nil => rfl
  | cons l ls ih =>
    have hl : l ≠ "bye" := fun h => hno (h ▸ List.mem_cons_self l ls)
    have hls : "bye" ∉ ls := fun h => hno (List.mem_cons_of_mem l h)
    show (if l = "bye" then ([EXIT], true)
          else (MSG :: (clientMain ls).1, (clientMain ls).2)).2 = false
    rw [if_neg hl]
    exact ih hls

/-- C10: process_cli never returns for any sequence of recv results — a
pass whose recv yields 0 (peer closed) or a negative error takes no
branch and simply loops (the body has no break or return, so the pass
completes rather than blocking or exiting) — and the receiving thread is
ended only externally: the main thread reaches pthread_cancel exactly
after the user enters "bye", never before. -/
theorem C10_process_cli_never_returns
    (len : Int) (m : CLIENTMSG) (recvs : List (Int × CLIENTMSG))
    (lines rest : List String) (hlen : len ≤ 0) (hno : "bye" ∉ lines) :
    (process_cli_iter len m ≠ IterResult.returnFromLoop) ∧
    (process_cli_iter len m = IterResult.continueLoop none) ∧
    ((process_cli_run recvs).2 = false) ∧
    (clientMain (lines ++ "bye" :: rest) =
      (lines.map (fun _ => MSG) ++ [EXIT], true)) ∧
    ((clientMain lines).2 = false) :=
  ⟨process_cli_iter_continues len m,
   process_cli_iter_nonpositive len m hlen,
   process_cli_run_never_returns recvs,
   clientMain_bye_cancels lines rest hno,
   clientMain_no_bye_no_cancel lines hno⟩

/-- Witness for C10 at concrete inputs: a closed-peer recv result, a short
recv trace, and a chat session whose second line is "bye". -/
theorem C10_process_cli_never_returns_witness :
    ((0 : Int) ≤ 0 ∧ "bye" ∉ ["hello"]) ∧
    process_cli_iter 0 (CLIENTMSG.mk OK "" "") = IterResult.continueLoop none ∧
    (process_cli_run [(0, CLIENTMSG.mk OK "" ""), (1, CLIENTMSG.mk USER "alice" "")]).2 = false ∧
    clientMain (["hello"] ++ "bye" :: []) = (List.map (fun _ => MSG) ["hello"] ++ [EXIT], true) :=
  ⟨⟨le_refl 0, by simp⟩,
   (C10_process_cli_never_returns 0 (CLIENTMSG.mk OK "" "")
      [(0, CLIENTMSG.mk OK "" ""), (1, CLIENTMSG.mk USER "alice" "")]
      ["hello"] [] (le_refl 0) (by simp)).2.1,
   (C10_process_cli_never_returns 0 (CLIENTMSG.mk OK "" "")
      [(0, CLIENTMSG.mk OK "" ""), (1, CLIENTMSG.mk USER "alice" "")]
      ["hello"] [] (le_refl 0) (by simp)).2.2.1,
   (C10_process_cli_never_returns 0 (CLIENTMSG.mk OK "" "")
      [(0, CLIENTMSG.mk OK "" ""), (1, CLIENTMSG.mk USER "alice" "")]
      ["hello"] [] (le_refl 0) (by simp)).2.2.2.1⟩

end Cli
